import Mathlib

/-!
Verification of the SilentKingdoms contract (contracts/SilentKingdoms.sol,
embedded in test/SilentKingdomsSepolia.ts).

The contract stores, per player address, two encrypted 32-bit unsigned
integers (gold, lastBuilding) and a plaintext registered flag.  We embed the
contract shallowly at decrypted-value level: an euint32 is represented by its
decrypted value, a natural number below 2 ^ 32, with wrap-around made explicit
where the FHE arithmetic wraps (FHE.sub on euint32 is subtraction modulo
2 ^ 32).  An ebool is represented by its decrypted Bool.  Access-control
grants (FHE.allowThis / FHE.allow) are modelled by recording, on every stored
ciphertext, the list of grantees attached when the handle is stored: a freshly
computed FHE handle carries no persistent grant, and the only grants the
contract ever attaches are the ones in storePlayerCiphertexts, so the stored
list is exactly the grants made.  Reverting requires are modelled with Except:
an error result means the transaction reverts and no state change happens.
-/

/-- Identities (Solidity addresses) are opaque; we model them as naturals. -/
abbrev Addr := Nat

/-- A grantee of decryption rights on a ciphertext: either the contract
itself (FHE.allowThis) or an externally owned account (FHE.allow). -/
inductive Grantee where
  | contractItself : Grantee
  | account : Addr → Grantee
  deriving DecidableEq, Repr

/-- A stored euint32 ciphertext: its decrypted value together with the
decryption grants attached to the stored handle. -/
structure Cipher where
  val : Nat
  allowed : List Grantee
  deriving DecidableEq, Repr

/-- Solidity constant STARTING_GOLD = 1_000. -/
def STARTING_GOLD : Nat := 1000

/-- Solidity constant BARRACKS_COST = 100. -/
def BARRACKS_COST : Nat := 100

/-- Solidity constant FARM_COST = 200. -/
def FARM_COST : Nat := 200

/-- Solidity constant FACTORY_COST = 300. -/
def FACTORY_COST : Nat := 300

/-- Solidity constant WALL_COST = 400. -/
def WALL_COST : Nat := 400

/-- FHE.asEuint32: a trivial encryption of a plaintext constant; the
decrypted value is the constant reduced to 32 bits. -/
def FHE_asEuint32 (n : Nat) : Nat := n % 2 ^ 32

/-- FHE.eq on euint32, at decrypted level. -/
def FHE_eq (a b : Nat) : Bool := a == b

/-- FHE.ge on euint32, at decrypted level: a greater-or-equal b. -/
def FHE_ge (a b : Nat) : Bool := decide (b ≤ a)

/-- FHE.and on ebool, at decrypted level. -/
def FHE_and (a b : Bool) : Bool := a && b

/-- FHE.or on ebool, at decrypted level. -/
def FHE_or (a b : Bool) : Bool := a || b

/-- FHE.select on euint32, at decrypted level. -/
def FHE_select (c : Bool) (a b : Nat) : Nat := if c then a else b

/-- FHE.sub on euint32: subtraction modulo 2 ^ 32 (two-complement wrap). -/
def FHE_sub (a b : Nat) : Nat := (a + (2 ^ 32 - b % 2 ^ 32)) % 2 ^ 32

/-- The struct PlayerData of the contract. -/
structure PlayerData where
  gold : Cipher
  lastBuilding : Cipher
  registered : Bool
  deriving DecidableEq, Repr

/-- The default value of a Solidity mapping slot: all-zero record,
registered = false, zero handles with no grants. -/
def emptyPlayer : PlayerData :=
  { gold := ⟨0, []⟩, lastBuilding := ⟨0, []⟩, registered := false }

/-- The contract storage: mapping(address => PlayerData) private _players. -/
def State := Addr → PlayerData

/-- The state of a freshly deployed contract: every mapping slot holds the
default record. -/
def initState : State := fun _ => emptyPlayer

/-- Write one mapping slot. -/
def setPlayer (st : State) (a : Addr) (p : PlayerData) : State :=
  fun x => if x = a then p else st x

/-- The revert reasons of the contract.  AlreadyRegistered is the revert
string "Player already registered", NotRegistered is "Player not registered". -/
inductive GameError where
  | AlreadyRegistered : GameError
  | NotRegistered : GameError
  deriving DecidableEq, Repr

/-- The private helper _storePlayerCiphertexts: writes both ciphertexts into
the record and attaches, to each stored handle, exactly the grants
FHE.allowThis (the contract itself) and FHE.allow(·, playerAddress)
(the owning identity).  The incoming handles are freshly computed by FHE
operations and so carry no prior persistent grant. -/
def storePlayerCiphertexts (player : PlayerData) (goldVal buildingVal : Nat)
    (playerAddress : Addr) : PlayerData :=
  { player with
    gold := ⟨goldVal, [Grantee.contractItself, Grantee.account playerAddress]⟩
    lastBuilding := ⟨buildingVal, [Grantee.contractItself, Grantee.account playerAddress]⟩ }

/-- joinGame(): reverts if the caller is already registered; otherwise marks
the record registered, stores encrypted STARTING_GOLD and encrypted 0 with
the standard grants, and emits PlayerJoined (events carry no state and are
not modelled). -/
def joinGame (sender : Addr) (st : State) : Except GameError State :=
  let player := st sender
  if player.registered then
    Except.error GameError.AlreadyRegistered
  else
    let startingGold := FHE_asEuint32 STARTING_GOLD
    let initialBuilding := FHE_asEuint32 0
    let player := { player with registered := true }
    Except.ok (setPlayer st sender
      (storePlayerCiphertexts player startingGold initialBuilding sender))

/-- The private helper _resolveBuildingCost: oblivious catalog lookup.
Returns the selected cost (0 when no catalog id matches) and the validity
flag (whether the requested id matches a catalog entry). -/
def resolveBuildingCost (buildingId : Nat) : Nat × Bool :=
  let isBarracks := FHE_eq buildingId (FHE_asEuint32 1)
  let isFarm := FHE_eq buildingId (FHE_asEuint32 2)
  let isFactory := FHE_eq buildingId (FHE_asEuint32 3)
  let isWall := FHE_eq buildingId (FHE_asEuint32 4)
  let selectedCost := FHE_asEuint32 0
  let selectedCost := FHE_select isBarracks (FHE_asEuint32 BARRACKS_COST) selectedCost
  let selectedCost := FHE_select isFarm (FHE_asEuint32 FARM_COST) selectedCost
  let selectedCost := FHE_select isFactory (FHE_asEuint32 FACTORY_COST) selectedCost
  let selectedCost := FHE_select isWall (FHE_asEuint32 WALL_COST) selectedCost
  let validPair := FHE_or (FHE_or isBarracks isFarm) (FHE_or isFactory isWall)
  (selectedCost, validPair)

/-- The ebool shouldApply of constructBuilding: the requested id is a known
catalog entry and the current gold can afford its cost. -/
def shouldApply (currentGold buildingId : Nat) : Bool :=
  FHE_and (resolveBuildingCost buildingId).2
    (FHE_ge currentGold (resolveBuildingCost buildingId).1)

/-- The euint32 appliedCost of constructBuilding: the selected cost when
shouldApply holds, otherwise encrypted 0. -/
def appliedCost (currentGold buildingId : Nat) : Nat :=
  FHE_select (shouldApply currentGold buildingId)
    (resolveBuildingCost buildingId).1 (FHE_asEuint32 0)

/-- constructBuilding(encryptedBuildingId, inputProof): reverts if the caller
is not registered; otherwise performs the oblivious update and always
succeeds.  buildingId is the decrypted value of the external ciphertext after
FHE.fromExternal (an euint32, hence reduced modulo 2 ^ 32); proof validation
is performed by the external FHE capability and is outside this embedding. -/
def constructBuilding (sender : Addr) (buildingId : Nat) (st : State) :
    Except GameError State :=
  let player := st sender
  if player.registered then
    let currentGold := player.gold.val
    let currentBuilding := player.lastBuilding.val
    let bid := buildingId % 2 ^ 32
    let updatedGold := FHE_sub currentGold (appliedCost currentGold bid)
    let updatedBuilding := FHE_select (shouldApply currentGold bid) bid currentBuilding
    Except.ok (setPlayer st sender
      (storePlayerCiphertexts player updatedGold updatedBuilding sender))
  else
    Except.error GameError.NotRegistered

/-- getPlayerGold(playerAddress): reverts when unregistered. -/
def getPlayerGold (playerAddress : Addr) (st : State) : Except GameError Cipher :=
  let player := st playerAddress
  if player.registered then Except.ok player.gold
  else Except.error GameError.NotRegistered

/-- getPlayerLastBuilding(playerAddress): reverts when unregistered. -/
def getPlayerLastBuilding (playerAddress : Addr) (st : State) :
    Except GameError Cipher :=
  let player := st playerAddress
  if player.registered then Except.ok player.lastBuilding
  else Except.error GameError.NotRegistered

/-- getPlayerState(playerAddress): reverts when unregistered; otherwise
returns both ciphertexts and the plaintext registered flag. -/
def getPlayerState (playerAddress : Addr) (st : State) :
    Except GameError (Cipher × Cipher × Bool) :=
  let player := st playerAddress
  if player.registered then
    Except.ok (player.gold, player.lastBuilding, player.registered)
  else Except.error GameError.NotRegistered

/-- isPlayerRegistered(playerAddress): a total plaintext read, never fails. -/
def isPlayerRegistered (playerAddress : Addr) (st : State) : Bool :=
  (st playerAddress).registered

/-- getBuildingPrices(): pure, returns the fixed catalog costs in order. -/
def getBuildingPrices : List Nat :=
  [BARRACKS_COST, FARM_COST, FACTORY_COST, WALL_COST]

/-- The state transition of one joinGame transaction: a reverted transaction
leaves the chain state unchanged. -/
def joinStep (sender : Addr) (st : State) : State :=
  match joinGame sender st with
  | Except.ok st' => st'
  | Except.error _ => st

/-- The state transition of one constructBuilding transaction: a reverted
transaction leaves the chain state unchanged. -/
def constructStep (st : State) (call : Addr × Nat) : State :=
  match constructBuilding call.1 call.2 st with
  | Except.ok st' => st'
  | Except.error _ => st

/-- A sequence of constructBuilding transactions applied in order. -/
def runConstructs (st : State) (calls : List (Addr × Nat)) : State :=
  calls.foldl constructStep st

-- Basic sanity checks of the embedding on concrete inputs.

example : resolveBuildingCost 2 = (200, true) := by decide
example : resolveBuildingCost 7 = (0, false) := by decide
example : appliedCost 1000 2 = 200 := by decide
example : appliedCost 50 4 = 0 := by decide
example : FHE_sub 1000 200 = 800 := by decide
example : FHE_sub 0 1 = 2 ^ 32 - 1 := by decide

-- Helper lemmas shared by the claim theorems.

/-- The applied cost never exceeds the current gold: it is 0 unless the
affordability comparison succeeded. -/
theorem appliedCost_le (g k : Nat) : appliedCost g k ≤ g := by
  unfold appliedCost FHE_select
  split
  · next h =>
    simp only [shouldApply, FHE_and, FHE_ge, Bool.and_eq_true, decide_eq_true_eq] at h
    exact h.2
  · simp [FHE_asEuint32]

/-- FHE subtraction agrees with truncated subtraction when no wrap occurs. -/
theorem FHE_sub_no_wrap (a b : Nat) (hb : b ≤ a) (ha : a < 2 ^ 32) :
    FHE_sub a b = a - b := by
  unfold FHE_sub
  have hb32 : b % 2 ^ 32 = b := Nat.mod_eq_of_lt (lt_of_le_of_lt hb ha)
  rw [hb32]
  have h1 : a + (2 ^ 32 - b) = (a - b) + 2 ^ 32 := by omega
  rw [h1, Nat.add_mod_right]
  exact Nat.mod_eq_of_lt (by omega)

/-- Catalog lookup on an id outside the catalog yields cost 0, invalid. -/
theorem resolveBuildingCost_unknown (k : Nat)
    (h1 : k ≠ 1) (h2 : k ≠ 2) (h3 : k ≠ 3) (h4 : k ≠ 4) :
    resolveBuildingCost k = (0, false) := by
  simp [resolveBuildingCost, FHE_eq, FHE_select, FHE_or, FHE_asEuint32,
    h1, h2, h3, h4]

/-- Equation lemma: a join against an unregistered slot succeeds and writes
the freshly encrypted starting values with the standard grants. -/
theorem joinGame_ok (st : State) (a : Addr) (h : (st a).registered = false) :
    joinGame a st = Except.ok (setPlayer st a
      (storePlayerCiphertexts { st a with registered := true }
        (FHE_asEuint32 STARTING_GOLD) (FHE_asEuint32 0) a)) := by
  simp [joinGame, h]

/-- Equation lemma: a construct call by a registered player succeeds and
writes the obliviously updated gold and building with the standard grants. -/
theorem constructBuilding_ok (st : State) (a : Addr) (k : Nat)
    (hreg : (st a).registered = true) :
    constructBuilding a k st = Except.ok (setPlayer st a
      (storePlayerCiphertexts (st a)
        (FHE_sub (st a).gold.val (appliedCost (st a).gold.val (k % 2 ^ 32)))
        (FHE_select (shouldApply (st a).gold.val (k % 2 ^ 32)) (k % 2 ^ 32)
          (st a).lastBuilding.val) a)) := by
  simp [constructBuilding, hreg]

/-- Catalog ids 1 to 4 are valid and their costs are at most 400. -/
theorem resolveBuildingCost_known (k : Nat)
    (hk : k = 1 ∨ k = 2 ∨ k = 3 ∨ k = 4) :
    (resolveBuildingCost k).2 = true ∧
    (resolveBuildingCost k).1 ≤ 400 ∧ k % 2 ^ 32 = k := by
  rcases hk with h | h | h | h <;> subst h <;> refine ⟨by decide, by decide, by decide⟩

/-- A construct call that matches a known catalog id with affordable cost
applies the purchase. -/
theorem construct_apply (st : State) (a : Addr) (k : Nat)
    (hreg : (st a).registered = true)
    (hg32 : (st a).gold.val < 2 ^ 32)
    (hk : k = 1 ∨ k = 2 ∨ k = 3 ∨ k = 4)
    (hcost : (resolveBuildingCost k).1 ≤ (st a).gold.val) :
    ∃ st', constructBuilding a k st = Except.ok st' ∧
      (st' a).gold.val = (st a).gold.val - (resolveBuildingCost k).1 ∧
      (st' a).lastBuilding.val = k := by
  obtain ⟨hvalid, _, hk32⟩ := resolveBuildingCost_known k hk
  have happ : shouldApply (st a).gold.val k = true := by
    simp [shouldApply, FHE_and, FHE_ge, hvalid, hcost]
  have hac : appliedCost (st a).gold.val k = (resolveBuildingCost k).1 := by
    simp [appliedCost, FHE_select, happ]
  rw [constructBuilding_ok st a k hreg, hk32]
  refine ⟨_, rfl, ?_, ?_⟩
  · simp only [setPlayer, storePlayerCiphertexts, if_pos rfl, hac]
    exact FHE_sub_no_wrap _ _ hcost hg32
  · simp [setPlayer, storePlayerCiphertexts, happ, FHE_select]

/-- Claim C9: getBuildingPrices is a pure constant (it takes no state
argument and is total, so it cannot fail) returning exactly the four
catalog costs 100, 200, 300, 400 in the order Barracks, Farm, Factory,
Wall. -/
theorem getBuildingPrices_catalog :
    getBuildingPrices = [100, 200, 300, 400] := rfl

/-- Claim C10: the 32-bit subtraction in constructBuilding never wraps:
the applied cost is either 0 or the selected catalog cost with the
inclusive affordability comparison true, so it never exceeds the current
gold, and FHE subtraction coincides with exact natural subtraction. -/
theorem construct_sub_no_wrap (g k : Nat) (hg : g < 2 ^ 32) :
    appliedCost g k ≤ g ∧
    FHE_sub g (appliedCost g k) = g - appliedCost g k ∧
    (appliedCost g k = 0 ∨
      (appliedCost g k = (resolveBuildingCost k).1 ∧
        FHE_ge g (resolveBuildingCost k).1 = true)) := by
  refine ⟨appliedCost_le g k, FHE_sub_no_wrap g _ (appliedCost_le g k) hg, ?_⟩
  by_cases h : shouldApply g k
  · refine Or.inr ⟨by simp [appliedCost, FHE_select, h], ?_⟩
    simp only [shouldApply, FHE_and, Bool.and_eq_true] at h
    exact h.2
  · exact Or.inl (by simp [appliedCost, FHE_select, h, FHE_asEuint32])

/-- Witness for C10 at gold 1000, building id 2. -/
theorem construct_sub_no_wrap_witness :
    appliedCost 1000 2 ≤ 1000 ∧
    FHE_sub 1000 (appliedCost 1000 2) = 1000 - appliedCost 1000 2 ∧
    (appliedCost 1000 2 = 0 ∨
      (appliedCost 1000 2 = (resolveBuildingCost 2).1 ∧
        FHE_ge 1000 (resolveBuildingCost 2).1 = true)) :=
  construct_sub_no_wrap 1000 2 (by decide)

/-- Claim C6: joining from an unregistered slot succeeds and the new record
decrypts to gold 1000, lastBuilding 0, with the registered flag set. -/
theorem join_starting_allocation (st : State) (a : Addr)
    (h : (st a).registered = false) :
    ∃ st', joinGame a st = Except.ok st' ∧
      (st' a).gold.val = 1000 ∧
      (st' a).lastBuilding.val = 0 ∧
      (st' a).registered = true := by
  refine ⟨setPlayer st a
    (storePlayerCiphertexts { st a with registered := true }
      (FHE_asEuint32 STARTING_GOLD) (FHE_asEuint32 0) a), ?_, ?_, ?_, ?_⟩
  · simp [joinGame, h]
  · simp [setPlayer, storePlayerCiphertexts, FHE_asEuint32, STARTING_GOLD]
  · simp [setPlayer, storePlayerCiphertexts, FHE_asEuint32]
  · simp [setPlayer, storePlayerCiphertexts]

/-- Witness for C6: a fresh identity joining on a fresh contract. -/
theorem join_starting_allocation_witness :
    ∃ st', joinGame 0 initState = Except.ok st' ∧
      (st' 0).gold.val = 1000 ∧
      (st' 0).lastBuilding.val = 0 ∧
      (st' 0).registered = true :=
  join_starting_allocation initState 0 rfl

/-- Claim C7: against an unregistered identity, constructBuilding and the
three reads all revert with NotRegistered (and hence create no record:
the post-state of the reverted construct transaction equals the
pre-state), while isPlayerRegistered is total by construction and returns
false. -/
theorem not_registered_gating (st : State) (a : Addr) (k : Nat)
    (h : (st a).registered = false) :
    constructBuilding a k st = Except.error GameError.NotRegistered ∧
    getPlayerGold a st = Except.error GameError.NotRegistered ∧
    getPlayerLastBuilding a st = Except.error GameError.NotRegistered ∧
    getPlayerState a st = Except.error GameError.NotRegistered ∧
    isPlayerRegistered a st = false ∧
    constructStep st (a, k) = st := by
  refine ⟨?_, ?_, ?_, ?_, ?_, ?_⟩ <;>
    simp [constructBuilding, getPlayerGold, getPlayerLastBuilding,
      getPlayerState, isPlayerRegistered, constructStep, h]

/-- Witness for C7: a fresh identity on a fresh contract, building id 1. -/
theorem not_registered_gating_witness :
    constructBuilding 0 1 initState = Except.error GameError.NotRegistered ∧
    getPlayerGold 0 initState = Except.error GameError.NotRegistered ∧
    getPlayerLastBuilding 0 initState = Except.error GameError.NotRegistered ∧
    getPlayerState 0 initState = Except.error GameError.NotRegistered ∧
    isPlayerRegistered 0 initState = false ∧
    constructStep initState (0, 1) = initState :=
  not_registered_gating initState 0 1 rfl

/-- Claim C1: constructing a catalog building id k whose cost is affordable
(inclusive comparison) debits exactly that cost from the decrypted gold and
records k as the last building. -/
theorem construct_affordable (st : State) (a : Addr) (k g b : Nat)
    (hreg : (st a).registered = true)
    (hg : (st a).gold.val = g)
    (_hb : (st a).lastBuilding.val = b)
    (hg32 : g < 2 ^ 32)
    (hk : k = 1 ∨ k = 2 ∨ k = 3 ∨ k = 4)
    (hcost : (resolveBuildingCost k).1 ≤ g) :
    ∃ st', constructBuilding a k st = Except.ok st' ∧
      (st' a).gold.val = g - (resolveBuildingCost k).1 ∧
      (st' a).lastBuilding.val = k := by
  subst hg
  exact construct_apply st a k hreg hg32 hk hcost

/-- Witness for C1, the literal P3 scenario: player with gold 1000
constructs building id 2 (Farm, cost 200), ending with gold 800 and
lastBuilding 2. -/
theorem construct_affordable_witness :
    ∃ st', constructBuilding 0 2 (joinStep 0 initState) = Except.ok st' ∧
      (st' 0).gold.val = 1000 - (resolveBuildingCost 2).1 ∧
      (st' 0).lastBuilding.val = 2 :=
  construct_affordable (joinStep 0 initState) 0 2 1000 0 rfl rfl rfl
    (by decide) (Or.inr (Or.inl rfl)) (by decide)

/-- Claim C4: the affordability comparison is inclusive: when the decrypted
gold exactly equals the requested catalog cost, the purchase applies,
leaving gold 0 and lastBuilding equal to the requested id. -/
theorem construct_exact_boundary (st : State) (a : Addr) (k : Nat)
    (hreg : (st a).registered = true)
    (hk : k = 1 ∨ k = 2 ∨ k = 3 ∨ k = 4)
    (hg : (st a).gold.val = (resolveBuildingCost k).1) :
    ∃ st', constructBuilding a k st = Except.ok st' ∧
      (st' a).gold.val = 0 ∧ (st' a).lastBuilding.val = k := by
  obtain ⟨_, hle, _⟩ := resolveBuildingCost_known k hk
  have hg32 : (st a).gold.val < 2 ^ 32 := by rw [hg]; omega
  obtain ⟨st', hok, hgold, hbld⟩ :=
    construct_apply st a k hreg hg32 hk (le_of_eq hg.symm)
  exact ⟨st', hok, by rw [hgold, hg, Nat.sub_self], hbld⟩

/-- Witness for C4, the literal P7 scenario: after join (gold 1000) and
constructing ids 2, 3, 4 (gold 1000 - 200 - 300 - 400 = 100), constructing
id 1 (Barracks, cost 100) leaves gold 0 and lastBuilding 1. -/
theorem construct_exact_boundary_witness :
    ∃ st', constructBuilding 0 1
        (runConstructs (joinStep 0 initState) [(0, 2), (0, 3), (0, 4)]) =
          Except.ok st' ∧
      (st' 0).gold.val = 0 ∧ (st' 0).lastBuilding.val = 1 :=
  construct_exact_boundary
    (runConstructs (joinStep 0 initState) [(0, 2), (0, 3), (0, 4)]) 0 1
    (by decide) (Or.inl rfl) (by decide)

/-- Claim C2: a construct call requesting an id outside the catalog, or a
catalog id whose cost exceeds the current gold, still succeeds at the call
level and leaves the decrypted state unchanged. -/
theorem construct_rejected_noop (st : State) (a : Addr) (k g b : Nat)
    (hreg : (st a).registered = true)
    (hg : (st a).gold.val = g)
    (hb : (st a).lastBuilding.val = b)
    (hg32 : g < 2 ^ 32)
    (hk32 : k < 2 ^ 32)
    (hcase : (k ≠ 1 ∧ k ≠ 2 ∧ k ≠ 3 ∧ k ≠ 4) ∨
      ((k = 1 ∨ k = 2 ∨ k = 3 ∨ k = 4) ∧ g < (resolveBuildingCost k).1)) :
    ∃ st', constructBuilding a k st = Except.ok st' ∧
      (st' a).gold.val = g ∧ (st' a).lastBuilding.val = b := by
  subst hg; subst hb
  have hk : k % 2 ^ 32 = k := Nat.mod_eq_of_lt hk32
  have happ : shouldApply (st a).gold.val k = false := by
    rcases hcase with ⟨h1, h2, h3, h4⟩ | ⟨_, hlt⟩
    · simp [shouldApply, resolveBuildingCost_unknown k h1 h2 h3 h4, FHE_and]
    · have hge : FHE_ge (st a).gold.val (resolveBuildingCost k).1 = false := by
        simp only [FHE_ge, decide_eq_false_iff_not]
        omega
      simp [shouldApply, FHE_and, hge]
  have hac : appliedCost (st a).gold.val k = 0 := by
    simp [appliedCost, FHE_select, happ, FHE_asEuint32]
  rw [constructBuilding_ok st a k hreg, hk]
  refine ⟨_, rfl, ?_, ?_⟩
  · simp only [setPlayer, storePlayerCiphertexts, if_pos rfl, hac]
    rw [FHE_sub_no_wrap _ 0 (Nat.zero_le _) hg32]
    exact Nat.sub_zero _
  · simp [setPlayer, storePlayerCiphertexts, happ, FHE_select]

/-- Witness for C2, the literal P4 and P5 scenarios folded into one state:
after join (gold 1000) and constructing id 2 and id 2 again and id 3
(gold 1000 - 200 - 200 - 300 = 300, lastBuilding 3), requesting id 7
(unknown) is a no-op; from the same state, requesting id 4 (cost 400,
with only 300 gold) is also a no-op. -/
theorem construct_rejected_noop_witness :
    (∃ st', constructBuilding 0 7
        (runConstructs (joinStep 0 initState) [(0, 2), (0, 2), (0, 3)]) =
          Except.ok st' ∧
      (st' 0).gold.val = 300 ∧ (st' 0).lastBuilding.val = 3) ∧
    (∃ st', constructBuilding 0 4
        (runConstructs (joinStep 0 initState) [(0, 2), (0, 2), (0, 3)]) =
          Except.ok st' ∧
      (st' 0).gold.val = 300 ∧ (st' 0).lastBuilding.val = 3) :=
  ⟨construct_rejected_noop
      (runConstructs (joinStep 0 initState) [(0, 2), (0, 2), (0, 3)]) 0 7 300 3
      (by decide) (by decide) (by decide) (by decide) (by decide)
      (Or.inl (by decide)),
    construct_rejected_noop
      (runConstructs (joinStep 0 initState) [(0, 2), (0, 2), (0, 3)]) 0 4 300 3
      (by decide) (by decide) (by decide) (by decide) (by decide)
      (Or.inr ⟨by decide, by decide⟩)⟩

/-- Claim C5: a second joinGame by the same identity reverts with
AlreadyRegistered, and the reverted transaction leaves the post-join state
exactly as it was. -/
theorem join_twice_rejected (st st1 : State) (a : Addr)
    (h : joinGame a st = Except.ok st1) :
    joinGame a st1 = Except.error GameError.AlreadyRegistered ∧
    joinStep a st1 = st1 := by
  have hreg : (st1 a).registered = true := by
    by_cases hr : (st a).registered
    · simp [joinGame, hr] at h
    · rw [joinGame_ok st a (by simpa using hr)] at h
      have h2 := Except.ok.inj h
      rw [← h2]
      simp [setPlayer, storePlayerCiphertexts]
  exact ⟨by simp [joinGame, hreg], by simp [joinStep, joinGame, hreg]⟩

/-- Witness for C5: identity 0 joins a fresh contract, then joins again. -/
theorem join_twice_rejected_witness :
    joinGame 0 (joinStep 0 initState) = Except.error GameError.AlreadyRegistered ∧
    joinStep 0 (joinStep 0 initState) = joinStep 0 initState :=
  join_twice_rejected initState (joinStep 0 initState) 0 rfl

/-- Claim C8: every successful joinGame and every successful
constructBuilding stores both encrypted fields with decryption grants for
exactly the contract itself and the owning identity, and nobody else. -/
theorem store_grants_exactly_contract_and_owner
    (stJ stC stJ' stC' : State) (a b : Addr) (k : Nat)
    (hj : joinGame a stJ = Except.ok stJ')
    (hc : constructBuilding b k stC = Except.ok stC') :
    (stJ' a).gold.allowed = [Grantee.contractItself, Grantee.account a] ∧
    (stJ' a).lastBuilding.allowed = [Grantee.contractItself, Grantee.account a] ∧
    (stC' b).gold.allowed = [Grantee.contractItself, Grantee.account b] ∧
    (stC' b).lastBuilding.allowed = [Grantee.contractItself, Grantee.account b] := by
  by_cases hrj : (stJ a).registered
  · simp [joinGame, hrj] at hj
  · rw [joinGame_ok stJ a (by simpa using hrj)] at hj
    have hj2 := Except.ok.inj hj
    by_cases hrc : (stC b).registered
    · rw [constructBuilding_ok stC b k hrc] at hc
      have hc2 := Except.ok.inj hc
      rw [← hj2, ← hc2]
      refine ⟨?_, ?_, ?_, ?_⟩ <;> simp [setPlayer, storePlayerCiphertexts]
    · simp [constructBuilding, hrc] at hc

/-- Witness for C8: identity 0 joins a fresh contract, then constructs
building id 1 from the post-join state. -/
theorem store_grants_exactly_contract_and_owner_witness :
    (joinStep 0 initState 0).gold.allowed =
      [Grantee.contractItself, Grantee.account 0] ∧
    (joinStep 0 initState 0).lastBuilding.allowed =
      [Grantee.contractItself, Grantee.account 0] ∧
    (constructStep (joinStep 0 initState) (0, 1) 0).gold.allowed =
      [Grantee.contractItself, Grantee.account 0] ∧
    (constructStep (joinStep 0 initState) (0, 1) 0).lastBuilding.allowed =
      [Grantee.contractItself, Grantee.account 0] :=
  store_grants_exactly_contract_and_owner initState (joinStep 0 initState)
    (joinStep 0 initState) (constructStep (joinStep 0 initState) (0, 1))
    0 0 1 rfl rfl

/-- One constructBuilding transaction never increases a player's decrypted
gold, and keeps it below 2 ^ 32. -/
theorem constructStep_gold_le (st : State) (c : Addr × Nat) (a : Addr)
    (h : (st a).gold.val < 2 ^ 32) :
    ((constructStep st c) a).gold.val ≤ (st a).gold.val ∧
    ((constructStep st c) a).gold.val < 2 ^ 32 := by
  obtain ⟨s, k⟩ := c
  by_cases hr : (st s).registered
  · have hco := constructBuilding_ok st s k hr
    by_cases hsa : a = s
    · subst hsa
      have hle := appliedCost_le (st a).gold.val (k % 2 ^ 32)
      simp only [constructStep, hco, setPlayer, storePlayerCiphertexts,
        eq_self_iff_true, ite_true]
      rw [FHE_sub_no_wrap _ _ hle h]
      omega
    · simp only [constructStep, hco, setPlayer, if_neg hsa]
      exact ⟨le_refl _, h⟩
  · simp only [constructStep, constructBuilding, if_neg hr]
    exact ⟨le_refl _, h⟩

/-- A sequence of constructBuilding transactions never increases a player's
decrypted gold, and keeps it below 2 ^ 32. -/
theorem runConstructs_gold (calls : List (Addr × Nat)) (st : State) (a : Addr)
    (h : (st a).gold.val < 2 ^ 32) :
    ((runConstructs st calls) a).gold.val ≤ (st a).gold.val ∧
    ((runConstructs st calls) a).gold.val < 2 ^ 32 := by
  induction calls generalizing st with
  | nil => exact ⟨le_refl _, h⟩
  | cons c cs ih =>
    have hstep := constructStep_gold_le st c a h
    have hrest := ih (constructStep st c) hstep.2
    exact ⟨le_trans hrest.1 hstep.1, hrest.2⟩

/-- Claim C3: gold is monotonically non-increasing under construction: in
any sequence of constructBuilding transactions, each call leaves the
decrypted gold less than or equal to the gold before that call. -/
theorem gold_monotone (st : State) (a : Addr)
    (h : (st a).gold.val < 2 ^ 32)
    (calls : List (Addr × Nat)) (c : Addr × Nat) :
    ((constructStep (runConstructs st calls) c) a).gold.val ≤
      ((runConstructs st calls) a).gold.val :=
  (constructStep_gold_le (runConstructs st calls) c a
    (runConstructs_gold calls st a h).2).1

/-- Witness for C3: identity 0 joins, constructs id 2, then one further
call (id 1) does not increase gold. -/
theorem gold_monotone_witness :
    ((constructStep (runConstructs (joinStep 0 initState) [(0, 2)]) (0, 1)) 0).gold.val ≤
      ((runConstructs (joinStep 0 initState) [(0, 2)]) 0).gold.val :=
  gold_monotone (joinStep 0 initState) 0 (by decide) [(0, 2)] (0, 1)
